import Mathlib

/-!
Shallow embedding of the terrain-row engine of `src/game/managers/TerrainManager.ts`
(class `TerrainManager`): row generation, row clearing, the per-frame generation
scheduler and the explosion resolver, together with proofs of the specification
claims about them.

World coordinates and probabilities are rational numbers (JS numbers used here
are exact decimals), row indices are integers, and `Math.floor` on a quotient is
the integer floor of a rational.  The JS `Map<number, GameObject>` fields
`rowColliders` / `rowVisuals` are modelled by their key sets (the stored game
objects are opaque handles); entity groups are lists of records; `Math.random()`
is an explicit tape `rng : ℕ → ℚ` consumed at an index stored in the state.
-/

namespace Terrain

/-- Modelled from the spec: the tile size constant `TILE_SIZE` is imported from
`src/game/constants`, a file not among the analyzed sources; the spec's
scenarios fix the tile size at 16. -/
def TILE_SIZE : ℚ := 16

/-- `mapWidthTiles = 25` (TerrainManager.ts line 37). -/
def mapWidthTiles : ℕ := 25

/-- `mapHeightTiles = 500` (line 38). -/
def mapHeightTiles : ℤ := 500

/-- `mapWidthPixels = mapWidthTiles * TILE_SIZE` (line 39). -/
def mapWidthPixels : ℚ := (mapWidthTiles : ℚ) * TILE_SIZE

/-- `boulderSpawnChanceBase = 0.03` (line 43). -/
def boulderSpawnChanceBase : ℚ := 3 / 100

/-- `enemySpawnChanceBase = 0.008` (line 44). -/
def enemySpawnChanceBase : ℚ := 8 / 1000

/-- `spikeSpawnChanceBase = 0.03` (line 45). -/
def spikeSpawnChanceBase : ℚ := 3 / 100

/-- `coinSpawnChanceBase = 0.005` (line 46). -/
def coinSpawnChanceBase : ℚ := 5 / 1000

/-- `difficultyScaleFactor = 0.003` (line 47). -/
def difficultyScaleFactor : ℚ := 3 / 1000

/-- `initialPlatformRows = 5` (line 51). -/
def initialPlatformRows : ℤ := 5

/-- `initialClearRows = 3` (line 52). -/
def initialClearRows : ℤ := 3

/-- `baseEnemySpeed = 30` (line 55). -/
def baseEnemySpeed : ℚ := 30

/-- `enemySpeedDepthScale = 0.5` (line 56). -/
def enemySpeedDepthScale : ℚ := 1 / 2

/-- A boulder: position, active flag and accumulated damage taken.
The concrete `Boulder` entity class is outside the analyzed sources, so damage
is modelled as an accumulator (`takeDamage` adds to it). -/
structure Boulder where
  x : ℚ
  y : ℚ
  active : Bool
  dmg : ℚ
deriving DecidableEq

/-- An enemy: position, active flag, accumulated damage and configured speed. -/
structure Enemy where
  x : ℚ
  y : ℚ
  active : Bool
  dmg : ℚ
  speed : ℚ
deriving DecidableEq

/-- A spike hazard: position, active flag and accumulated damage taken. -/
structure Spike where
  x : ℚ
  y : ℚ
  active : Bool
  dmg : ℚ
deriving DecidableEq

/-- A coin: position only. -/
structure Coin where
  x : ℚ
  y : ℚ
deriving DecidableEq

/-- One `particleManager.triggerParticles(key, x, y, {count})` call. -/
structure Particle where
  key : String
  x : ℚ
  y : ℚ
  count : ℕ
deriving DecidableEq

/-- `boulder.takeDamage(n)`: record the damage. -/
def Boulder.takeDamage (b : Boulder) (n : ℚ) : Boulder :=
  { b with dmg := b.dmg + n }

/-- `enemy.takeDamage(n)`: record the damage. -/
def Enemy.takeDamage (e : Enemy) (n : ℚ) : Enemy :=
  { e with dmg := e.dmg + n }

/-- `spike.takeDamage(n)`: record the damage. -/
def Spike.takeDamage (sp : Spike) (n : ℚ) : Spike :=
  { sp with dmg := sp.dmg + n }

/-- The mutable state of a `TerrainManager` together with the entity groups it
writes to.  `rowColliders` / `rowVisuals` are the key sets of the JS maps from
row index to game object; `events` records the payload `tileY` of every
`dirt-row-cleared` EventBus emission; `rngIdx` is the number of `Math.random()`
calls consumed so far from the random tape. -/
structure TMState where
  generatedRowsMaxY : ℚ
  rowColliders : Finset ℤ
  rowVisuals : Finset ℤ
  boulders : List Boulder
  enemies : List Enemy
  spikes : List Spike
  coins : List Coin
  particles : List Particle
  events : List ℤ
  rngIdx : ℕ
  visitLog : List ℤ
deriving DecidableEq

/-- State right after the constructor (lines 58-93): empty stores, empty groups,
`generatedRowsMaxY = initialClearRows * TILE_SIZE` (line 88). The `visitLog`
ghost field records which row indices the generation scheduler has invoked the
generator on. -/
def initialState : TMState where
  generatedRowsMaxY := (initialClearRows : ℚ) * TILE_SIZE
  rowColliders := ∅
  rowVisuals := ∅
  boulders := []
  enemies := []
  spikes := []
  coins := []
  particles := []
  events := []
  rngIdx := 0
  visitLog := []

/-- The dirt-row particle burst of `clearCurrentRow` (lines 222-230): one
`triggerParticles("dirt_tile", i*TILE_SIZE + TILE_SIZE/2, rowY + TILE_SIZE/2, {count: 3})`
per column. -/
def dirtParticles (targetRowWorldY : ℚ) : List Particle :=
  (List.range mapWidthTiles).map fun (i : ℕ) =>
    { key := "dirt_tile"
      x := (i : ℚ) * TILE_SIZE + TILE_SIZE / 2
      y := targetRowWorldY + TILE_SIZE / 2
      count := 3 }

/-- The spike-row particle burst of `clearCurrentRow` (lines 232-242). -/
def spikeParticles (playerCurrentRow : ℤ) : List Particle :=
  (List.range mapWidthTiles).map fun (i : ℕ) =>
    { key := "spikes"
      x := (i : ℚ) * TILE_SIZE + TILE_SIZE / 2
      y := (playerCurrentRow : ℚ) * TILE_SIZE + TILE_SIZE / 2
      count := 2 }

/-- `clearCurrentRow(triggerWorldY)` (lines 162-254).  Target row is
`Math.floor(triggerWorldY / TILE_SIZE) + 1`; if its collider is stored, the
collider and (if present) visual entries are removed, every active spike with
`y` strictly between the row-above's top and `1.2` tile-heights below it takes
damage 1, particle bursts are recorded and a `dirt-row-cleared` event with the
target row index is emitted, returning `true`; otherwise the state is returned
unchanged with `false`. -/
def clearCurrentRow (s : TMState) (triggerWorldY : ℚ) : TMState × Bool :=
  let playerRowYBelow : ℤ := ⌊triggerWorldY / TILE_SIZE⌋ + 1
  let playerCurrentRow : ℤ := playerRowYBelow - 1
  let targetRowWorldY : ℚ := (playerRowYBelow : ℚ) * TILE_SIZE
  let targetTileY : ℤ := playerRowYBelow
  if targetTileY ∈ s.rowColliders then
    let rowAboveWorldY : ℚ := (playerCurrentRow : ℚ) * TILE_SIZE
    ({ s with
        rowColliders := s.rowColliders.erase targetTileY
        rowVisuals :=
          if targetTileY ∈ s.rowVisuals then s.rowVisuals.erase targetTileY
          else s.rowVisuals
        spikes := s.spikes.map fun sp =>
          if sp.active ∧ rowAboveWorldY < sp.y ∧
              sp.y < rowAboveWorldY + TILE_SIZE * (12 / 10) then
            sp.takeDamage 1
          else sp
        particles :=
          s.particles ++ dirtParticles targetRowWorldY ++
            spikeParticles playerCurrentRow
        events := s.events ++ [targetTileY] }, true)
  else
    (s, false)

/-- Modelled from the spec: the entity classes (`Boulder`, `Enemy`, `Spike`,
`Coin`) are outside the analyzed sources, so an entity's "physical body center"
(`body.position + body.offset` in the occupancy scan, lines 343-362) is taken
to be the entity's stored position.  Reports occupied when some entity of any
of the four groups lies within `checkRadius = TILE_SIZE * 0.8` of the target in
both axes (lines 331-362). -/
def occupiedAt (s : TMState) (spawnWorldX spawnSurfaceY : ℚ) : Bool :=
  let checkRadius : ℚ := TILE_SIZE * (8 / 10)
  let near : ℚ → ℚ → Bool := fun bx bY =>
    decide (|bx - spawnWorldX| < checkRadius) &&
      decide (|bY - spawnSurfaceY| < checkRadius)
  s.boulders.any (fun b => near b.x b.y) ||
    s.enemies.any (fun e => near e.x e.y) ||
    s.spikes.any (fun sp => near sp.x sp.y) ||
    s.coins.any (fun c => near c.x c.y)

/-- `depthInRows = tileY - (initialPlatformRows + 1)` (line 314). -/
def depthInRows (tileY : ℤ) : ℤ := tileY - (initialPlatformRows + 1)

/-- `depthFactor = Math.max(0, depthInRows) * difficultyScaleFactor` (lines 315-316). -/
def depthFactor (tileY : ℤ) : ℚ :=
  ((max 0 (depthInRows tileY) : ℤ) : ℚ) * difficultyScaleFactor

/-- `currentBoulderChance` (line 318). -/
def currentBoulderChance (tileY : ℤ) : ℚ := boulderSpawnChanceBase + depthFactor tileY

/-- `currentEnemyChance` (line 319). -/
def currentEnemyChance (tileY : ℤ) : ℚ := enemySpawnChanceBase + depthFactor tileY

/-- `currentSpikeChance` (line 320). -/
def currentSpikeChance (tileY : ℤ) : ℚ := spikeSpawnChanceBase + depthFactor tileY

/-- `currentCoinChance` (line 321). -/
def currentCoinChance (tileY : ℤ) : ℚ := coinSpawnChanceBase + depthFactor tileY

/-- `currentEnemySpeed = Math.min(100, baseEnemySpeed + depthInRows * enemySpeedDepthScale)`
(lines 323-326). -/
def currentEnemySpeed (tileY : ℤ) : ℚ :=
  min 100 (baseEnemySpeed + ((depthInRows tileY : ℤ) : ℚ) * enemySpeedDepthScale)

/-- The body of `generateRow`'s per-column loop (lines 328-417) at column
`tileX` of the row with index `tileY` whose top is at `worldY`: an occupied
cell is skipped; otherwise spawn rolls are drawn from the random tape in the
order boulder, enemy, spike (short-circuiting: a successful roll stops the
chain and occupies the cell), and only when the cell is still unoccupied a coin
roll follows. -/
def spawnAtCell (rng : ℕ → ℚ) (worldY : ℚ) (tileY : ℤ) (s : TMState)
    (tileX : ℕ) : TMState :=
  let spawnWorldX : ℚ := (tileX : ℚ) * TILE_SIZE + TILE_SIZE / 2
  let colliderYOffset : ℚ := TILE_SIZE * (9 / 10)
  let colliderHeight : ℚ := TILE_SIZE * (1 / 10)
  let spawnSurfaceY : ℚ := worldY + colliderYOffset - colliderHeight / 2
  let spikeSpawnY : ℚ := worldY
  if occupiedAt s spawnWorldX spawnSurfaceY then s
  else if rng s.rngIdx < currentBoulderChance tileY then
    { s with
        boulders := s.boulders ++
          [{ x := spawnWorldX, y := spawnSurfaceY - TILE_SIZE / 2,
             active := true, dmg := 0 }]
        rngIdx := s.rngIdx + 1 }
  else if rng (s.rngIdx + 1) < currentEnemyChance tileY then
    { s with
        enemies := s.enemies ++
          [{ x := spawnWorldX, y := spawnSurfaceY - TILE_SIZE / 2,
             active := true, dmg := 0, speed := currentEnemySpeed tileY }]
        rngIdx := s.rngIdx + 2 }
  else if rng (s.rngIdx + 2) < currentSpikeChance tileY then
    { s with
        spikes := s.spikes ++
          [{ x := spawnWorldX - TILE_SIZE / 2, y := spikeSpawnY + 10,
             active := true, dmg := 0 }]
        rngIdx := s.rngIdx + 3 }
  else if rng (s.rngIdx + 3) < currentCoinChance tileY then
    { s with
        coins := s.coins ++
          [{ x := spawnWorldX, y := spawnSurfaceY - TILE_SIZE / 2 }]
        rngIdx := s.rngIdx + 4 }
  else
    { s with rngIdx := s.rngIdx + 4 }

/-- `generateRow(worldY, forceGenerate)` (lines 260-418).  No-op when the row
index is out of bounds or already stored, or when unforced at or above the
initial platform row.  Otherwise registers the row's collider and visual under
its index; content spawning (the per-column loop) runs only strictly below the
initial platform row. -/
def generateRow (rng : ℕ → ℚ) (s : TMState) (worldY : ℚ)
    (forceGenerate : Bool) : TMState :=
  let tileY : ℤ := ⌊worldY / TILE_SIZE⌋
  if tileY < 0 ∨ mapHeightTiles ≤ tileY ∨ tileY ∈ s.rowColliders then s
  else if ¬forceGenerate ∧ tileY ≤ initialPlatformRows then s
  else
    let s1 : TMState :=
      { s with
          rowColliders := insert tileY s.rowColliders
          rowVisuals := insert tileY s.rowVisuals }
    if tileY ≤ initialPlatformRows then s1
    else (List.range mapWidthTiles).foldl (spawnAtCell rng worldY tileY) s1

/-- Number of iterations of the loop `for (y = startY; y < endY; y += TILE_SIZE)`. -/
def stepsCount (startY endY : ℚ) : ℕ := (max 0 ⌈(endY - startY) / TILE_SIZE⌉).toNat

/-- The successive values of `y` in that loop. -/
def rowYs (startY endY : ℚ) : List ℚ :=
  (List.range (stepsCount startY endY)).map fun (i : ℕ) =>
    startY + TILE_SIZE * (i : ℚ)

/-- `update(cameraBottomY)` (lines 146-160): when the generation threshold
`cameraBottomY + TILE_SIZE * 10` exceeds the frontier `generatedRowsMaxY`,
walk `y` from the frontier to the threshold in tile steps, naturally generating
each row with `y >= (initialPlatformRows + 1) * TILE_SIZE` (each such
invocation is recorded in the `visitLog` ghost field), then set the frontier to
the threshold. -/
def update (rng : ℕ → ℚ) (s : TMState) (cameraBottomY : ℚ) : TMState :=
  let generationThreshold : ℚ := cameraBottomY + TILE_SIZE * 10
  if s.generatedRowsMaxY < generationThreshold then
    let s1 : TMState :=
      (rowYs s.generatedRowsMaxY generationThreshold).foldl
        (fun st y =>
          if ((initialPlatformRows : ℚ) + 1) * TILE_SIZE ≤ y then
            generateRow rng
              { st with visitLog := st.visitLog ++ [⌊y / TILE_SIZE⌋] } y false
          else st)
        s
    { s1 with generatedRowsMaxY := generationThreshold }
  else s

/-- A sequence of per-frame scheduler calls. -/
def updates (rng : ℕ → ℚ) (s : TMState) (cams : List ℚ) : TMState :=
  cams.foldl (update rng) s

/-- The integers from `lo` to `hi` inclusive (the values of `dy + centerTileY`
in the explosion's row loop). -/
def intRange (lo hi : ℤ) : List ℤ :=
  (List.range (hi + 1 - lo).toNat).map fun (i : ℕ) => lo + (i : ℤ)

/-- `Phaser.Math.Distance.Squared`. -/
def distSq (x1 y1 x2 y2 : ℚ) : ℚ :=
  (x2 - x1) * (x2 - x1) + (y2 - y1) * (y2 - y1)

/-- The candidate rows of `handleCreateExplosion`'s clearing loop (lines
437-443): `centerTileY ± tileRadius` with `tileRadius = ceil(radius / TILE_SIZE)`. -/
def explosionCandidateRows (worldY radius : ℚ) : List ℤ :=
  let centerTileY : ℤ := ⌊worldY / TILE_SIZE⌋
  let tileRadius : ℤ := ⌈radius / TILE_SIZE⌉
  intRange (centerTileY - tileRadius) (centerTileY + tileRadius)

/-- The explosion loop's per-row test (lines 444-457): the vertical distance to
the row's center must be within the radius, and the squared distance of the
explosion center to the row's center must be within the radius squared expanded
by the squared half map width. -/
def explosionRowKept (worldX worldY radius : ℚ) (targetTileY : ℤ) : Bool :=
  let radiusSq : ℚ := radius * radius
  let rowWorldY : ℚ := (targetTileY : ℚ) * TILE_SIZE
  let yDist : ℚ := worldY - (rowWorldY + TILE_SIZE / 2)
  if radiusSq < yDist * yDist then false
  else
    let xDist : ℚ := worldX - mapWidthPixels / 2
    let checkRadiusSq : ℚ :=
      radiusSq + (mapWidthPixels / 2) * (mapWidthPixels / 2)
    decide (xDist * xDist + yDist * yDist ≤ checkRadiusSq)

/-- The rows the explosion invokes `clearCurrentRow` on, in loop order. -/
def explosionKeptRows (worldX worldY radius : ℚ) : List ℤ :=
  (explosionCandidateRows worldY radius).filter (explosionRowKept worldX worldY radius)

/-- The row-clearing pass of `handleCreateExplosion` (lines 442-460): clear each
kept row `r` via `clearCurrentRow(r * TILE_SIZE - TILE_SIZE / 2)`. -/
def explosionClears (s : TMState) (worldX worldY radius : ℚ) : TMState :=
  (explosionKeptRows worldX worldY radius).foldl
    (fun st (r : ℤ) =>
      (clearCurrentRow st ((r : ℚ) * TILE_SIZE - TILE_SIZE / 2)).1)
    s

/-- The enemy damage pass (lines 467-479): every active enemy within the radius
takes damage 999. -/
def damageEnemiesInRadius (ex ey radius : ℚ) (es : List Enemy) : List Enemy :=
  es.map fun e =>
    if e.active ∧ distSq ex ey e.x e.y ≤ radius * radius then e.takeDamage 999
    else e

/-- The spike damage pass (lines 482-496): every active spike within the radius
takes damage 1. -/
def damageSpikesInRadius (ex ey radius : ℚ) (sps : List Spike) : List Spike :=
  sps.map fun sp =>
    if sp.active ∧ distSq ex ey sp.x sp.y ≤ radius * radius then sp.takeDamage 1
    else sp

/-- The boulder damage pass (lines 499-512): every active boulder within the
radius takes damage 3. -/
def damageBouldersInRadius (ex ey radius : ℚ) (bs : List Boulder) : List Boulder :=
  bs.map fun b =>
    if b.active ∧ distSq ex ey b.x b.y ≤ radius * radius then b.takeDamage 3
    else b

/-- `handleCreateExplosion({worldX, worldY, radius})` (lines 424-513): the
row-clearing pass followed by the three direct entity damage passes. -/
def handleCreateExplosion (s : TMState) (worldX worldY radius : ℚ) : TMState :=
  let s1 : TMState := explosionClears s worldX worldY radius
  { s1 with
      enemies := damageEnemiesInRadius worldX worldY radius s1.enemies
      spikes := damageSpikesInRadius worldX worldY radius s1.spikes
      boulders := damageBouldersInRadius worldX worldY radius s1.boulders }

/-- A fixed random tape on which every spawn roll fails (every chance is well
below 1 at moderate depths). -/
def constRng : ℕ → ℚ := fun _ => 1

/-- A fixed random tape on which every roll succeeds (0 is below every chance). -/
def zeroRng : ℕ → ℚ := fun _ => 0

section

attribute [local semireducible] Rat.mul Rat.inv Rat.add Rat.sub Rat.ofScientific

set_option maxRecDepth 40000

/-- The per-column spawner touches only the entity groups and the random
counter: the row stores, frontier, visit log, particles and events are
untouched. -/
theorem spawnAtCell_frame (rng : ℕ → ℚ) (worldY : ℚ) (tileY : ℤ) (s : TMState)
    (tileX : ℕ) :
    (spawnAtCell rng worldY tileY s tileX).rowColliders = s.rowColliders ∧
    (spawnAtCell rng worldY tileY s tileX).rowVisuals = s.rowVisuals ∧
    (spawnAtCell rng worldY tileY s tileX).generatedRowsMaxY = s.generatedRowsMaxY ∧
    (spawnAtCell rng worldY tileY s tileX).visitLog = s.visitLog ∧
    (spawnAtCell rng worldY tileY s tileX).particles = s.particles ∧
    (spawnAtCell rng worldY tileY s tileX).events = s.events := by
  unfold spawnAtCell
  dsimp only
  split_ifs <;> exact ⟨rfl, rfl, rfl, rfl, rfl, rfl⟩

/-- Frame property of the whole spawn loop. -/
theorem spawnFold_frame (rng : ℕ → ℚ) (worldY : ℚ) (tileY : ℤ) (xs : List ℕ)
    (s : TMState) :
    (xs.foldl (spawnAtCell rng worldY tileY) s).rowColliders = s.rowColliders ∧
    (xs.foldl (spawnAtCell rng worldY tileY) s).rowVisuals = s.rowVisuals ∧
    (xs.foldl (spawnAtCell rng worldY tileY) s).generatedRowsMaxY = s.generatedRowsMaxY ∧
    (xs.foldl (spawnAtCell rng worldY tileY) s).visitLog = s.visitLog ∧
    (xs.foldl (spawnAtCell rng worldY tileY) s).particles = s.particles ∧
    (xs.foldl (spawnAtCell rng worldY tileY) s).events = s.events := by
  induction xs generalizing s with
  | nil => exact ⟨rfl, rfl, rfl, rfl, rfl, rfl⟩
  | cons x xs ih =>
    have hx := spawnAtCell_frame rng worldY tileY s x
    have hfold := ih (spawnAtCell rng worldY tileY s x)
    simp only [List.foldl_cons]
    exact ⟨hfold.1.trans hx.1, hfold.2.1.trans hx.2.1,
      hfold.2.2.1.trans hx.2.2.1, hfold.2.2.2.1.trans hx.2.2.2.1,
      hfold.2.2.2.2.1.trans hx.2.2.2.2.1, hfold.2.2.2.2.2.trans hx.2.2.2.2.2⟩

/-- The generator is a no-op on a row whose index is already stored. -/
theorem generateRow_of_mem (rng : ℕ → ℚ) (s : TMState) (worldY : ℚ) (f : Bool)
    (h : ⌊worldY / TILE_SIZE⌋ ∈ s.rowColliders) :
    generateRow rng s worldY f = s := by
  unfold generateRow
  rw [if_pos (Or.inr (Or.inr h))]

/-- The generator is a no-op on a row index outside the vertical bounds. -/
theorem generateRow_oob (rng : ℕ → ℚ) (s : TMState) (worldY : ℚ) (f : Bool)
    (h : ⌊worldY / TILE_SIZE⌋ < 0 ∨ mapHeightTiles ≤ ⌊worldY / TILE_SIZE⌋) :
    generateRow rng s worldY f = s := by
  unfold generateRow
  rcases h with h | h
  · rw [if_pos (Or.inl h)]
  · rw [if_pos (Or.inr (Or.inl h))]

/-- After any `generateRow` call the target row index is stored iff it was
already stored or the call materialized it (in bounds, and forced or strictly
below the platform); the collider and visual stores receive the index
together. -/
theorem generateRow_stores (rng : ℕ → ℚ) (s : TMState) (worldY : ℚ) (f : Bool) :
    ((generateRow rng s worldY f).rowColliders = s.rowColliders ∧
      (generateRow rng s worldY f).rowVisuals = s.rowVisuals) ∨
    ((generateRow rng s worldY f).rowColliders =
        insert ⌊worldY / TILE_SIZE⌋ s.rowColliders ∧
      (generateRow rng s worldY f).rowVisuals =
        insert ⌊worldY / TILE_SIZE⌋ s.rowVisuals) := by
  unfold generateRow
  dsimp only
  split_ifs with h1 h2 h3
  · exact Or.inl ⟨rfl, rfl⟩
  · exact Or.inl ⟨rfl, rfl⟩
  · exact Or.inr ⟨rfl, rfl⟩
  · have hf := spawnFold_frame rng worldY ⌊worldY / TILE_SIZE⌋
      (List.range mapWidthTiles)
      { s with
          rowColliders := insert ⌊worldY / TILE_SIZE⌋ s.rowColliders
          rowVisuals := insert ⌊worldY / TILE_SIZE⌋ s.rowVisuals }
    exact Or.inr ⟨hf.1, hf.2.1⟩

/-- The generator never touches the frontier, the visit log, the particle log
or the event log. -/
theorem generateRow_frame (rng : ℕ → ℚ) (s : TMState) (worldY : ℚ) (f : Bool) :
    (generateRow rng s worldY f).generatedRowsMaxY = s.generatedRowsMaxY ∧
    (generateRow rng s worldY f).visitLog = s.visitLog ∧
    (generateRow rng s worldY f).particles = s.particles ∧
    (generateRow rng s worldY f).events = s.events := by
  unfold generateRow
  dsimp only
  split_ifs with h1 h2 h3
  · exact ⟨rfl, rfl, rfl, rfl⟩
  · exact ⟨rfl, rfl, rfl, rfl⟩
  · exact ⟨rfl, rfl, rfl, rfl⟩
  · have hf := spawnFold_frame rng worldY ⌊worldY / TILE_SIZE⌋
      (List.range mapWidthTiles)
      { s with
          rowColliders := insert ⌊worldY / TILE_SIZE⌋ s.rowColliders
          rowVisuals := insert ⌊worldY / TILE_SIZE⌋ s.rowVisuals }
    exact ⟨hf.2.2.1, hf.2.2.2.1, hf.2.2.2.2.1, hf.2.2.2.2.2⟩

/-- C2: a `clearCurrentRow` call whose target row
`floor(triggerWorldY / TILE_SIZE) + 1` has no stored collider returns `false`
and performs no state mutation at all: no store entry is removed, no spike is
damaged, no particles are emitted and no row-cleared event is sent. -/
theorem clearCurrentRow_absent_noop (s : TMState) (triggerWorldY : ℚ)
    (h : ⌊triggerWorldY / TILE_SIZE⌋ + 1 ∉ s.rowColliders) :
    clearCurrentRow s triggerWorldY = (s, false) := by
  unfold clearCurrentRow
  rw [if_neg h]

/-- Witness for C2 at the freshly constructed state and trigger 0. -/
theorem clearCurrentRow_absent_noop_witness :
    clearCurrentRow initialState 0 = (initialState, false) :=
  clearCurrentRow_absent_noop initialState 0 (by decide)

/-- C4: natural (non-forced) generation of any row at or above the initial
platform row changes nothing: no collider, no visual, no spawned entity. -/
theorem generateRow_platform_noop (rng : ℕ → ℚ) (s : TMState) (worldY : ℚ)
    (h : ⌊worldY / TILE_SIZE⌋ ≤ initialPlatformRows) :
    generateRow rng s worldY false = s := by
  unfold generateRow
  dsimp only
  split_ifs with h1 h2
  · rfl
  · rfl
  · exact absurd ⟨by simp, h⟩ h2

/-- Witness for C4: natural generation at the platform row itself (row 5,
world-Y 80) from the initial state is a no-op. -/
theorem generateRow_platform_noop_witness :
    generateRow zeroRng initialState 80 false = initialState :=
  generateRow_platform_noop zeroRng initialState 80 (by decide)

/-- C5: the row store holds at most one entry per index: a `generateRow` call
on an index that is already stored (in particular any second call on the same
index, whatever the two force flags were) is a complete no-op, and so is a call
on an out-of-bounds index. -/
theorem generateRow_idem (rng rng2 : ℕ → ℚ) (s : TMState) (worldY : ℚ)
    (f1 f2 : Bool) :
    (⌊worldY / TILE_SIZE⌋ ∈ s.rowColliders → generateRow rng s worldY f1 = s) ∧
    (⌊worldY / TILE_SIZE⌋ < 0 ∨ mapHeightTiles ≤ ⌊worldY / TILE_SIZE⌋ →
      generateRow rng s worldY f1 = s) ∧
    (⌊worldY / TILE_SIZE⌋ ∈ (generateRow rng s worldY f1).rowColliders →
      generateRow rng2 (generateRow rng s worldY f1) worldY f2 =
        generateRow rng s worldY f1) :=
  ⟨generateRow_of_mem rng s worldY f1,
   generateRow_oob rng s worldY f1,
   generateRow_of_mem rng2 (generateRow rng s worldY f1) worldY f2⟩

/-- Witness for C5: a forced regeneration of the already present platform row
is a no-op, and generation at row -1 (world-Y -16) stores nothing. -/
theorem generateRow_idem_witness :
    (generateRow constRng (generateRow zeroRng initialState 80 true) 80 false =
      generateRow zeroRng initialState 80 true) ∧
    generateRow zeroRng initialState (-16) true = initialState :=
  ⟨(generateRow_idem zeroRng constRng initialState 80 true false).2.2 (by decide),
   (generateRow_idem zeroRng constRng initialState (-16) true false).2.1 (by decide)⟩

/-- The clearer touches neither the entity groups other than spikes, nor the
frontier, random counter or visit log. -/
theorem clearCurrentRow_frame (s : TMState) (t : ℚ) :
    (clearCurrentRow s t).1.enemies = s.enemies ∧
    (clearCurrentRow s t).1.boulders = s.boulders ∧
    (clearCurrentRow s t).1.coins = s.coins ∧
    (clearCurrentRow s t).1.generatedRowsMaxY = s.generatedRowsMaxY ∧
    (clearCurrentRow s t).1.rngIdx = s.rngIdx ∧
    (clearCurrentRow s t).1.visitLog = s.visitLog := by
  unfold clearCurrentRow
  dsimp only
  split_ifs <;> exact ⟨rfl, rfl, rfl, rfl, rfl, rfl⟩

/-- The clearer either erases the target index from both stores, or (when the
collider was absent) leaves the state unchanged. -/
theorem clearCurrentRow_stores (s : TMState) (t : ℚ) :
    ((clearCurrentRow s t).1.rowColliders =
        s.rowColliders.erase (⌊t / TILE_SIZE⌋ + 1) ∧
      (clearCurrentRow s t).1.rowVisuals =
        s.rowVisuals.erase (⌊t / TILE_SIZE⌋ + 1)) ∨
    (clearCurrentRow s t).1 = s := by
  unfold clearCurrentRow
  dsimp only
  split_ifs with h1 h2
  · exact Or.inl ⟨rfl, rfl⟩
  · exact Or.inl ⟨rfl, (Finset.erase_eq_of_not_mem h2).symm⟩
  · exact Or.inr rfl

/-- The stores stay key-aligned: a row index has a collider iff it has a visual. -/
def keysAligned (s : TMState) : Prop := s.rowColliders = s.rowVisuals

/-- Key alignment survives a clear. -/
theorem keysAligned_clear (s : TMState) (t : ℚ) (h : keysAligned s) :
    keysAligned (clearCurrentRow s t).1 := by
  unfold keysAligned at h
  rcases clearCurrentRow_stores s t with ⟨hc, hv⟩ | hs
  · unfold keysAligned
    rw [hc, hv, h]
  · unfold keysAligned
    rw [hs, h]

/-- Key alignment survives a generation call. -/
theorem keysAligned_generateRow (rng : ℕ → ℚ) (s : TMState) (worldY : ℚ)
    (f : Bool) (h : keysAligned s) : keysAligned (generateRow rng s worldY f) := by
  unfold keysAligned at h
  rcases generateRow_stores rng s worldY f with ⟨hc, hv⟩ | ⟨hc, hv⟩ <;>
    · unfold keysAligned
      rw [hc, hv, h]

/-- Key alignment survives the scheduler's inner generation loop. -/
theorem keysAligned_updateFold (rng : ℕ → ℚ) (ys : List ℚ) (s : TMState)
    (h : keysAligned s) :
    keysAligned (ys.foldl
      (fun st y =>
        if ((initialPlatformRows : ℚ) + 1) * TILE_SIZE ≤ y then
          generateRow rng
            { st with visitLog := st.visitLog ++ [⌊y / TILE_SIZE⌋] } y false
        else st)
      s) := by
  induction ys generalizing s with
  | nil => exact h
  | cons y ys ih =>
    simp only [List.foldl_cons]
    apply ih
    split_ifs with hy
    · exact keysAligned_generateRow rng _ y false h
    · exact h

/-- Key alignment survives a scheduler call. -/
theorem keysAligned_update (rng : ℕ → ℚ) (s : TMState) (cam : ℚ)
    (h : keysAligned s) : keysAligned (update rng s cam) := by
  unfold update
  dsimp only
  split_ifs with h1
  · exact keysAligned_updateFold rng _ s h
  · exact h

/-- Key alignment survives the explosion's row-clearing pass. -/
theorem keysAligned_explosionClears (s : TMState) (wx wy rad : ℚ)
    (h : keysAligned s) : keysAligned (explosionClears s wx wy rad) := by
  unfold explosionClears
  generalize explosionKeptRows wx wy rad = rows
  induction rows generalizing s with
  | nil => exact h
  | cons r rows ih =>
    rw [List.foldl_cons]
    exact ih _ (keysAligned_clear s _ h)

/-- C10: every operation preserves the invariant that the collider map and the
visual map hold exactly the same set of row-index keys. -/
theorem stores_key_invariant (rng : ℕ → ℚ) (s : TMState)
    (worldY t cam wx wy rad : ℚ) (f : Bool) (h : keysAligned s) :
    keysAligned (generateRow rng s worldY f) ∧
    keysAligned (clearCurrentRow s t).1 ∧
    keysAligned (update rng s cam) ∧
    keysAligned (handleCreateExplosion s wx wy rad) := by
  refine ⟨keysAligned_generateRow rng s worldY f h,
    keysAligned_clear s t h, keysAligned_update rng s cam h, ?_⟩
  have h1 := keysAligned_explosionClears s wx wy rad h
  unfold keysAligned handleCreateExplosion at *
  exact h1

/-- Witness for C10 at the freshly constructed state. -/
theorem stores_key_invariant_witness :
    keysAligned (generateRow constRng initialState 96 false) ∧
    keysAligned (clearCurrentRow initialState 97).1 ∧
    keysAligned (update constRng initialState 0) ∧
    keysAligned (handleCreateExplosion initialState 200 168 40) :=
  stores_key_invariant constRng initialState 96 97 0 200 168 40 false rfl

/-- The explosion's clearing pass never touches enemies or boulders. -/
theorem explosionClears_frame (s : TMState) (wx wy rad : ℚ) :
    (explosionClears s wx wy rad).enemies = s.enemies ∧
    (explosionClears s wx wy rad).boulders = s.boulders := by
  unfold explosionClears
  generalize explosionKeptRows wx wy rad = rows
  induction rows generalizing s with
  | nil => exact ⟨rfl, rfl⟩
  | cons r rows ih =>
    rw [List.foldl_cons]
    have hc := clearCurrentRow_frame s ((r : ℚ) * TILE_SIZE - TILE_SIZE / 2)
    have hi := ih ((clearCurrentRow s ((r : ℚ) * TILE_SIZE - TILE_SIZE / 2)).1)
    exact ⟨hi.1.trans hc.1, hi.2.trans hc.2.1⟩

/-- C7: the explosion's direct damage pass hits exactly the active entities
whose squared Euclidean distance to the center is within the squared radius:
such enemies take damage 999, such boulders take the fixed partial damage 3 and
such spikes take damage 1, while every other entity is left exactly as it was.
For enemies and boulders the pass reads the pre-explosion groups unchanged
(row clearing cannot affect them); the spike pass applies the same pure radius
rule to the spike group as left by the clearing pass. -/
theorem explosion_direct_damage (s : TMState) (wx wy rad : ℚ) :
    (handleCreateExplosion s wx wy rad).enemies =
      s.enemies.map (fun e =>
        if e.active ∧ distSq wx wy e.x e.y ≤ rad * rad then e.takeDamage 999
        else e) ∧
    (handleCreateExplosion s wx wy rad).boulders =
      s.boulders.map (fun b =>
        if b.active ∧ distSq wx wy b.x b.y ≤ rad * rad then b.takeDamage 3
        else b) ∧
    (handleCreateExplosion s wx wy rad).spikes =
      (explosionClears s wx wy rad).spikes.map (fun sp =>
        if sp.active ∧ distSq wx wy sp.x sp.y ≤ rad * rad then sp.takeDamage 1
        else sp) := by
  have hf := explosionClears_frame s wx wy rad
  unfold handleCreateExplosion damageEnemiesInRadius damageSpikesInRadius
    damageBouldersInRadius
  dsimp only
  exact ⟨by rw [hf.1], by rw [hf.2], rfl⟩

/-- A spike placed for the C6 counterexample: its `y` is 2 units below the
target row's own top, outside the one-tile band above the target row. -/
def bandSpike : Spike := { x := 0, y := 114, active := true, dmg := 0 }

/-- A state holding only row 7 and that spike. -/
def bandState : TMState :=
  { initialState with
    rowColliders := ({7} : Finset ℤ)
    rowVisuals := ({7} : Finset ℤ)
    spikes := [bandSpike] }

/-- C6 counterexample: clearing row 7 (trigger 97) damages a spike at
`y = 114`, even though one tile-band above row 7 ends at `6·16 + 16 = 112`:
the code's band is 1.2 tile-heights tall, so a spike up to 3.2 units below the
target row's top is hit as well. -/
theorem clearRow_spike_band_ce :
    ⌊(97 : ℚ) / TILE_SIZE⌋ + 1 = 7 ∧
    (clearCurrentRow bandState 97).2 = true ∧
    (clearCurrentRow bandState 97).1.spikes =
      [{ x := 0, y := 114, active := true, dmg := 1 }] ∧
    ((7 : ℚ) - 1) * TILE_SIZE + TILE_SIZE < 114 := by
  decide

/-- C6 (amended): clearing the target row `N` erases exactly row `N` from both
stores (every other row's membership is untouched) and damages exactly the
active spikes with `(N-1)·TILE_SIZE < y < (N-1)·TILE_SIZE + 1.2·TILE_SIZE`, a
band 1.2 tile-heights tall below the row-above's top; any spike at or above
the row-above's top — in particular one positioned two or more rows above —
is untouched. -/
theorem clearRow_locality (s : TMState) (t : ℚ)
    (h : ⌊t / TILE_SIZE⌋ + 1 ∈ s.rowColliders) :
    (clearCurrentRow s t).1.rowColliders =
      s.rowColliders.erase (⌊t / TILE_SIZE⌋ + 1) ∧
    (clearCurrentRow s t).1.rowVisuals =
      s.rowVisuals.erase (⌊t / TILE_SIZE⌋ + 1) ∧
    (∀ r : ℤ, r ≠ ⌊t / TILE_SIZE⌋ + 1 →
      ((r ∈ (clearCurrentRow s t).1.rowColliders ↔ r ∈ s.rowColliders) ∧
        (r ∈ (clearCurrentRow s t).1.rowVisuals ↔ r ∈ s.rowVisuals))) ∧
    (clearCurrentRow s t).1.spikes = s.spikes.map (fun sp =>
      if sp.active ∧ ((⌊t / TILE_SIZE⌋ : ℤ) : ℚ) * TILE_SIZE < sp.y ∧
          sp.y < ((⌊t / TILE_SIZE⌋ : ℤ) : ℚ) * TILE_SIZE + TILE_SIZE * (12 / 10)
      then sp.takeDamage 1 else sp) ∧
    (∀ (i : ℕ) (sp : Spike), s.spikes[i]? = some sp →
      sp.y ≤ ((⌊t / TILE_SIZE⌋ : ℤ) : ℚ) * TILE_SIZE →
      (clearCurrentRow s t).1.spikes[i]? = some sp) := by
  have hspikes : (clearCurrentRow s t).1.spikes = s.spikes.map (fun sp =>
      if sp.active ∧ ((⌊t / TILE_SIZE⌋ : ℤ) : ℚ) * TILE_SIZE < sp.y ∧
          sp.y < ((⌊t / TILE_SIZE⌋ : ℤ) : ℚ) * TILE_SIZE + TILE_SIZE * (12 / 10)
      then sp.takeDamage 1 else sp) := by
    unfold clearCurrentRow
    dsimp only
    rw [if_pos h]
    simp only [Int.add_sub_cancel]
  have hc : (clearCurrentRow s t).1.rowColliders =
      s.rowColliders.erase (⌊t / TILE_SIZE⌋ + 1) := by
    unfold clearCurrentRow
    dsimp only
    rw [if_pos h]
  have hv : (clearCurrentRow s t).1.rowVisuals =
      s.rowVisuals.erase (⌊t / TILE_SIZE⌋ + 1) := by
    unfold clearCurrentRow
    dsimp only
    rw [if_pos h]
    dsimp only
    split_ifs with h2
    · rfl
    · exact (Finset.erase_eq_of_not_mem h2).symm
  refine ⟨hc, hv, ?_, hspikes, ?_⟩
  · intro r hr
    rw [hc, hv]
    simp [Finset.mem_erase, hr]
  · intro i sp hi hy
    rw [hspikes, List.getElem?_map, hi]
    have hcond : ¬(sp.active = true ∧
        ((⌊t / TILE_SIZE⌋ : ℤ) : ℚ) * TILE_SIZE < sp.y ∧
        sp.y < ((⌊t / TILE_SIZE⌋ : ℤ) : ℚ) * TILE_SIZE + TILE_SIZE * (12 / 10)) := by
      rintro ⟨-, hlow, -⟩
      exact absurd hy (not_le.mpr hlow)
    simp only [Option.map_some', if_neg hcond]

/-- Witness for C6 at the one-row band state and trigger 97 (target row 7). -/
theorem clearRow_locality_witness :
    (clearCurrentRow bandState 97).1.rowColliders =
      bandState.rowColliders.erase (⌊(97 : ℚ) / TILE_SIZE⌋ + 1) ∧
    (clearCurrentRow bandState 97).1.rowVisuals =
      bandState.rowVisuals.erase (⌊(97 : ℚ) / TILE_SIZE⌋ + 1) :=
  ⟨(clearRow_locality bandState 97 (by decide)).1,
    (clearRow_locality bandState 97 (by decide)).2.1⟩


/-- The C1 scenario state: forced generation of the platform row 5 (world-Y 80)
followed by natural generation of row 6 (world-Y 96), on a tape where every
spawn roll fails. -/
def scenarioSetup : TMState :=
  generateRow constRng (generateRow constRng initialState 80 true) 96 false

/-- C1 counterexample: in the scenario state rows 5 and 6 are stored, but the
Row Clearer with trigger world-Y 97 targets row `floor(97/16) + 1 = 7`, which
has no collider, so it returns `false` and changes nothing — it does not
remove row 6's collider and does not return `true`. -/
theorem clearRow_trigger97_ce :
    (6 : ℤ) ∈ scenarioSetup.rowColliders ∧
    ⌊(97 : ℚ) / TILE_SIZE⌋ + 1 = 7 ∧
    (clearCurrentRow scenarioSetup 97).2 = false ∧
    (clearCurrentRow scenarioSetup 97).1 = scenarioSetup := by
  decide

/-- C1 (amended): the target row is `floor(triggerWorldY/16) + 1`, so trigger
97 targets row 7, not row 6; for a trigger inside row 5's band, e.g. world-Y 95
(just above row 6's top), the call removes row 6's collider (leaving row 5's)
and returns `true`, and a repeated call with the same trigger returns `false`. -/
theorem clearRow_scenario_row6 :
    ⌊(95 : ℚ) / TILE_SIZE⌋ + 1 = 6 ∧
    ⌊(97 : ℚ) / TILE_SIZE⌋ + 1 = 7 ∧
    (5 : ℤ) ∈ scenarioSetup.rowColliders ∧
    (6 : ℤ) ∈ scenarioSetup.rowColliders ∧
    (clearCurrentRow scenarioSetup 95).2 = true ∧
    (6 : ℤ) ∉ (clearCurrentRow scenarioSetup 95).1.rowColliders ∧
    (5 : ℤ) ∈ (clearCurrentRow scenarioSetup 95).1.rowColliders ∧
    (clearCurrentRow (clearCurrentRow scenarioSetup 95).1 95).2 = false := by
  decide

/-- Membership in the explosion's candidate range of row indices. -/
theorem mem_intRange (lo hi r : ℤ) : r ∈ intRange lo hi ↔ lo ≤ r ∧ r ≤ hi := by
  unfold intRange
  simp only [List.mem_map, List.mem_range]
  constructor
  · rintro ⟨i, hi2, rfl⟩
    omega
  · rintro ⟨h1, h2⟩
    exact ⟨(r - lo).toNat, by omega, by omega⟩

/-- The trigger `r*TILE_SIZE - TILE_SIZE/2` the explosion loop passes to the
clearer makes the clearer target exactly row `r`. -/
theorem explosion_trigger_row (r : ℤ) :
    ⌊((r : ℚ) * TILE_SIZE - TILE_SIZE / 2) / TILE_SIZE⌋ + 1 = r := by
  have h1 : ((r : ℚ) * TILE_SIZE - TILE_SIZE / 2) / TILE_SIZE =
      ((r - 1 : ℤ) : ℚ) + 1 / 2 := by
    unfold TILE_SIZE
    push_cast
    ring
  rw [h1, Int.floor_int_add]
  have h2 : ⌊(1 : ℚ) / 2⌋ = 0 := by
    rw [Int.floor_eq_zero_iff]
    constructor <;> norm_num
  omega

/-- The rows the C8 scenario starts with: rows 5 through 15. -/
def explosionScenarioState : TMState :=
  { initialState with
    rowColliders := ({5, 6, 7, 8, 9, 10, 11, 12, 13, 14, 15} : Finset ℤ)
    rowVisuals := ({5, 6, 7, 8, 9, 10, 11, 12, 13, 14, 15} : Finset ℤ) }

/-- C8: the explosion resolver's candidate band is the row interval
`centerTileY ± ceil(radius/TILE_SIZE)`; each kept row `r` is cleared through a
trigger that targets exactly row `r`; the direct damage passes never change the
row store; and in the concrete scenario (tile size 16, radius 40, center at
row 10's world center `(200, 168)`) the kept rows are exactly 8 through 12, so
from a store holding rows 5-15 exactly rows 8-12 are removed. -/
theorem explosion_row_band (s : TMState) (wx wy rad : ℚ) :
    (∀ r : ℤ, r ∈ explosionCandidateRows wy rad ↔
      ⌊wy / TILE_SIZE⌋ - ⌈rad / TILE_SIZE⌉ ≤ r ∧
        r ≤ ⌊wy / TILE_SIZE⌋ + ⌈rad / TILE_SIZE⌉) ∧
    (∀ r : ℤ, ⌊((r : ℚ) * TILE_SIZE - TILE_SIZE / 2) / TILE_SIZE⌋ + 1 = r) ∧
    ((handleCreateExplosion s wx wy rad).rowColliders =
      (explosionClears s wx wy rad).rowColliders) ∧
    explosionKeptRows 200 168 40 = [8, 9, 10, 11, 12] ∧
    (handleCreateExplosion explosionScenarioState 200 168 40).rowColliders =
      ({5, 6, 7, 13, 14, 15} : Finset ℤ) := by
  refine ⟨fun r => mem_intRange _ _ r, explosion_trigger_row, rfl, by decide,
    by decide⟩

/-- A tape whose first three rolls fail and whose fourth succeeds: the three
hazard rolls of a cell fail, then the coin roll succeeds. -/
def coinRng : ℕ → ℚ := fun i => if i < 3 then 1 else 0

/-- C9: in the per-cell pass of a generated row, at most one of boulder, enemy
and spike is spawned; the rolls are evaluated in the fixed priority order
boulder, enemy, spike, with the first success winning the cell; the coin roll
is reached only when the cell was unoccupied and all three hazard rolls failed,
so a coin never coexists with a boulder, enemy or spike spawned in the same
pass; and an occupied cell spawns nothing at all. -/
theorem spawnAtCell_priority (rng : ℕ → ℚ) (worldY : ℚ) (tileY : ℤ)
    (s : TMState) (tileX : ℕ) :
    ((spawnAtCell rng worldY tileY s tileX).boulders.length +
        (spawnAtCell rng worldY tileY s tileX).enemies.length +
        (spawnAtCell rng worldY tileY s tileX).spikes.length ≤
      s.boulders.length + s.enemies.length + s.spikes.length + 1) ∧
    ((spawnAtCell rng worldY tileY s tileX).coins ≠ s.coins →
      (spawnAtCell rng worldY tileY s tileX).boulders = s.boulders ∧
        (spawnAtCell rng worldY tileY s tileX).enemies = s.enemies ∧
        (spawnAtCell rng worldY tileY s tileX).spikes = s.spikes) ∧
    (occupiedAt s ((tileX : ℚ) * TILE_SIZE + TILE_SIZE / 2)
        (worldY + TILE_SIZE * (9 / 10) - TILE_SIZE * (1 / 10) / 2) = true →
      spawnAtCell rng worldY tileY s tileX = s) ∧
    (occupiedAt s ((tileX : ℚ) * TILE_SIZE + TILE_SIZE / 2)
        (worldY + TILE_SIZE * (9 / 10) - TILE_SIZE * (1 / 10) / 2) = false →
      (rng s.rngIdx < currentBoulderChance tileY →
        (spawnAtCell rng worldY tileY s tileX).boulders.length =
            s.boulders.length + 1 ∧
          (spawnAtCell rng worldY tileY s tileX).enemies = s.enemies ∧
          (spawnAtCell rng worldY tileY s tileX).spikes = s.spikes ∧
          (spawnAtCell rng worldY tileY s tileX).coins = s.coins) ∧
      (¬rng s.rngIdx < currentBoulderChance tileY →
        rng (s.rngIdx + 1) < currentEnemyChance tileY →
        (spawnAtCell rng worldY tileY s tileX).enemies.length =
            s.enemies.length + 1 ∧
          (spawnAtCell rng worldY tileY s tileX).boulders = s.boulders ∧
          (spawnAtCell rng worldY tileY s tileX).spikes = s.spikes ∧
          (spawnAtCell rng worldY tileY s tileX).coins = s.coins) ∧
      (¬rng s.rngIdx < currentBoulderChance tileY →
        ¬rng (s.rngIdx + 1) < currentEnemyChance tileY →
        rng (s.rngIdx + 2) < currentSpikeChance tileY →
        (spawnAtCell rng worldY tileY s tileX).spikes.length =
            s.spikes.length + 1 ∧
          (spawnAtCell rng worldY tileY s tileX).boulders = s.boulders ∧
          (spawnAtCell rng worldY tileY s tileX).enemies = s.enemies ∧
          (spawnAtCell rng worldY tileY s tileX).coins = s.coins) ∧
      (¬rng s.rngIdx < currentBoulderChance tileY →
        ¬rng (s.rngIdx + 1) < currentEnemyChance tileY →
        ¬rng (s.rngIdx + 2) < currentSpikeChance tileY →
        rng (s.rngIdx + 3) < currentCoinChance tileY →
        (spawnAtCell rng worldY tileY s tileX).coins.length =
            s.coins.length + 1 ∧
          (spawnAtCell rng worldY tileY s tileX).boulders = s.boulders ∧
          (spawnAtCell rng worldY tileY s tileX).enemies = s.enemies ∧
          (spawnAtCell rng worldY tileY s tileX).spikes = s.spikes)) := by
  unfold spawnAtCell
  dsimp only
  split_ifs with h0 h1 h2 h3 h4 <;>
    simp_all [List.length_append] <;> omega

/-- Witness for C9: on a tape of zeros the boulder roll wins the first cell of
row 6, and on a tape failing the first three rolls only a coin appears. -/
theorem spawnAtCell_priority_witness :
    ((spawnAtCell zeroRng 96 6 initialState 0).boulders.length =
        initialState.boulders.length + 1 ∧
      (spawnAtCell zeroRng 96 6 initialState 0).enemies = initialState.enemies ∧
      (spawnAtCell zeroRng 96 6 initialState 0).spikes = initialState.spikes ∧
      (spawnAtCell zeroRng 96 6 initialState 0).coins = initialState.coins) ∧
    ((spawnAtCell coinRng 96 6 initialState 0).coins.length =
        initialState.coins.length + 1 ∧
      (spawnAtCell coinRng 96 6 initialState 0).boulders = initialState.boulders ∧
      (spawnAtCell coinRng 96 6 initialState 0).enemies = initialState.enemies ∧
      (spawnAtCell coinRng 96 6 initialState 0).spikes = initialState.spikes) :=
  ⟨((spawnAtCell_priority zeroRng 96 6 initialState 0).2.2.2 (by decide)).1
      (by decide),
    (((((spawnAtCell_priority coinRng 96 6 initialState 0).2.2.2
      (by decide)).2.2.2) (by decide) (by decide) (by decide)) (by decide))⟩

/-- The body of the scheduler's generation loop: naturally generate the row
at `y` when `y` is at or below the first natural row, logging the visit. -/
def schedStep (rng : ℕ → ℚ) (st : TMState) (y : ℚ) : TMState :=
  if ((initialPlatformRows : ℚ) + 1) * TILE_SIZE ≤ y then
    generateRow rng { st with visitLog := st.visitLog ++ [⌊y / TILE_SIZE⌋] } y
      false
  else st

/-- `update` is the fold of `schedStep` over the loop's `y` values followed by
the frontier assignment. -/
theorem update_eq (rng : ℕ → ℚ) (s : TMState) (cam : ℚ) :
    update rng s cam =
      if s.generatedRowsMaxY < cam + TILE_SIZE * 10 then
        { (rowYs s.generatedRowsMaxY (cam + TILE_SIZE * 10)).foldl
            (schedStep rng) s with
          generatedRowsMaxY := cam + TILE_SIZE * 10 }
      else s := rfl

/-- One scheduler step appends exactly the visited row (when the row qualifies)
and keeps the frontier. -/
theorem schedStep_log (rng : ℕ → ℚ) (st : TMState) (y : ℚ) :
    (schedStep rng st y).visitLog = st.visitLog ++
      (if ((initialPlatformRows : ℚ) + 1) * TILE_SIZE ≤ y then [⌊y / TILE_SIZE⌋]
       else []) ∧
    (schedStep rng st y).generatedRowsMaxY = st.generatedRowsMaxY := by
  unfold schedStep
  split_ifs with h
  · have hf := generateRow_frame rng
      { st with visitLog := st.visitLog ++ [⌊y / TILE_SIZE⌋] } y false
    exact ⟨hf.2.1, hf.1⟩
  · simp

/-- The scheduler loop appends exactly the qualifying rows of its `y` list,
in order, and keeps the frontier. -/
theorem schedFold_log (rng : ℕ → ℚ) (ys : List ℚ) (st : TMState) :
    (ys.foldl (schedStep rng) st).visitLog = st.visitLog ++
      ys.filterMap (fun y =>
        if ((initialPlatformRows : ℚ) + 1) * TILE_SIZE ≤ y
        then some ⌊y / TILE_SIZE⌋ else none) ∧
    (ys.foldl (schedStep rng) st).generatedRowsMaxY = st.generatedRowsMaxY := by
  induction ys generalizing st with
  | nil => simp
  | cons y ys ih =>
    rw [List.foldl_cons]
    have hstep := schedStep_log rng st y
    have hfold := ih (schedStep rng st y)
    constructor
    · rw [hfold.1, hstep.1, List.filterMap_cons]
      split_ifs with h <;> simp
    · exact hfold.2.trans hstep.2

/-- The frontier never decreases under a scheduler call. -/
theorem update_mono (rng : ℕ → ℚ) (t : TMState) (c : ℚ) :
    t.generatedRowsMaxY ≤ (update rng t c).generatedRowsMaxY := by
  rw [update_eq]
  split_ifs with h
  · exact le_of_lt h
  · exact le_refl _

/-- A scheduler call whose threshold does not exceed the frontier is a no-op. -/
theorem update_noop (rng : ℕ → ℚ) (t : TMState) (c : ℚ)
    (h : c + TILE_SIZE * 10 ≤ t.generatedRowsMaxY) : update rng t c = t := by
  rw [update_eq, if_neg (not_lt.mpr h)]

/-- Folding a guarded `some`/`none` over a list filters its image. -/
theorem filterMap_guard (l : List ℕ) (g : ℕ → ℤ) (p : ℤ → Prop)
    [DecidablePred p] :
    l.filterMap (fun i => if p (g i) then some (g i) else none) =
      (l.map g).filter (fun r => decide (p r)) := by
  induction l with
  | nil => rfl
  | cons a l ih =>
    rw [List.filterMap_cons, List.map_cons, List.filter_cons]
    by_cases h : p (g a) <;> simp [h, ih]

/-- The loop's `y` values between a tile-aligned frontier and threshold. -/
theorem rowYs_aligned (m n : ℤ) :
    rowYs ((m : ℚ) * TILE_SIZE) ((n : ℚ) * TILE_SIZE) =
      (List.range (n - m).toNat).map
        (fun (i : ℕ) => (m : ℚ) * TILE_SIZE + TILE_SIZE * (i : ℚ)) := by
  unfold rowYs stepsCount
  have h1 : ((n : ℚ) * TILE_SIZE - (m : ℚ) * TILE_SIZE) / TILE_SIZE =
      ((n - m : ℤ) : ℚ) := by
    unfold TILE_SIZE
    push_cast
    ring
  rw [h1, Int.ceil_intCast]
  congr 2
  omega

/-- The integer interval as a mapped range, shifted form. -/
theorem intRange_eq (m n : ℤ) :
    intRange m (n - 1) =
      (List.range (n - m).toNat).map (fun (i : ℕ) => m + (i : ℤ)) := by
  unfold intRange
  rw [show n - 1 + 1 - m = n - m from by ring]

/-- The rows one aligned scheduler call visits: the integer interval from the
frontier row to the row before the threshold, restricted to rows strictly
below the platform. -/
theorem visited_aligned (m n : ℤ) :
    (rowYs ((m : ℚ) * TILE_SIZE) ((n : ℚ) * TILE_SIZE)).filterMap
      (fun y => if ((initialPlatformRows : ℚ) + 1) * TILE_SIZE ≤ y
        then some ⌊y / TILE_SIZE⌋ else none) =
      (intRange m (n - 1)).filter
        (fun r => decide (initialPlatformRows + 1 ≤ r)) := by
  rw [rowYs_aligned, List.filterMap_map, intRange_eq]
  have hcongr : ∀ i ∈ List.range (n - m).toNat,
      ((fun y => if ((initialPlatformRows : ℚ) + 1) * TILE_SIZE ≤ y
          then some ⌊y / TILE_SIZE⌋ else none) ∘
        (fun (i : ℕ) => (m : ℚ) * TILE_SIZE + TILE_SIZE * (i : ℚ))) i =
      (fun (i : ℕ) =>
        if initialPlatformRows + 1 ≤ m + (i : ℤ) then some (m + (i : ℤ))
        else none) i := by
    intro i _
    have hy : (m : ℚ) * TILE_SIZE + TILE_SIZE * (i : ℚ) =
        ((m + (i : ℤ) : ℤ) : ℚ) * TILE_SIZE := by
      push_cast
      ring
    have hfloor : ⌊((m : ℚ) * TILE_SIZE + TILE_SIZE * (i : ℚ)) / TILE_SIZE⌋ =
        m + (i : ℤ) := by
      rw [hy, show ((m + (i : ℤ) : ℤ) : ℚ) * TILE_SIZE / TILE_SIZE =
        ((m + (i : ℤ) : ℤ) : ℚ) from by unfold TILE_SIZE; ring,
        Int.floor_intCast]
    have hcond : ((initialPlatformRows : ℚ) + 1) * TILE_SIZE ≤
        (m : ℚ) * TILE_SIZE + TILE_SIZE * (i : ℚ) ↔
        initialPlatformRows + 1 ≤ m + (i : ℤ) := by
      rw [hy, show (initialPlatformRows : ℚ) + 1 =
        ((initialPlatformRows + 1 : ℤ) : ℚ) from by push_cast; ring,
        mul_le_mul_right (show (0 : ℚ) < TILE_SIZE from by
          unfold TILE_SIZE; norm_num), Int.cast_le]
    simp only [Function.comp_apply, hfloor]
    split_ifs with h1 h2
    · rfl
    · exact absurd (hcond.mp h1) h2
    · exact absurd (hcond.mpr (by assumption)) h1
    · rfl
  rw [List.filterMap_congr hcongr, filterMap_guard]

/-- How often a row index occurs among the rows an aligned call visits. -/
theorem count_intRange_filter (lo hi r : ℤ) :
    ((intRange lo hi).filter
      (fun a => decide (initialPlatformRows + 1 ≤ a))).count r =
      if initialPlatformRows + 1 ≤ r ∧ lo ≤ r ∧ r ≤ hi then 1 else 0 := by
  have hnodup : (intRange lo hi).Nodup := by
    unfold intRange
    exact (List.nodup_range _).map (fun a b hab => by omega)
  have hnd2 := hnodup.filter (fun a => decide (initialPlatformRows + 1 ≤ a))
  by_cases hmem : r ∈ (intRange lo hi).filter
      (fun a => decide (initialPlatformRows + 1 ≤ a))
  · rw [List.count_eq_one_of_mem hnd2 hmem]
    obtain ⟨hin, hp⟩ := List.mem_filter.mp hmem
    rw [mem_intRange] at hin
    rw [if_pos ⟨of_decide_eq_true hp, hin.1, hin.2⟩]
  · rw [List.count_eq_zero_of_not_mem hmem]
    rw [if_neg]
    rintro ⟨h1, h2, h3⟩
    exact hmem (List.mem_filter.mpr
      ⟨(mem_intRange lo hi r).mpr ⟨h2, h3⟩, decide_eq_true h1⟩)

/-- Effect of one aligned scheduler call that does extend the frontier. -/
theorem update_aligned (rng : ℕ → ℚ) (s : TMState) (m k : ℤ)
    (hf : s.generatedRowsMaxY = (m : ℚ) * TILE_SIZE) (hm : m < k + 10) :
    (update rng s ((k : ℚ) * TILE_SIZE)).generatedRowsMaxY =
      ((k + 10 : ℤ) : ℚ) * TILE_SIZE ∧
    (update rng s ((k : ℚ) * TILE_SIZE)).visitLog = s.visitLog ++
      (intRange m (k + 10 - 1)).filter
        (fun r => decide (initialPlatformRows + 1 ≤ r)) := by
  have hT : (0 : ℚ) < TILE_SIZE := by
    unfold TILE_SIZE
    norm_num
  have hthr : (k : ℚ) * TILE_SIZE + TILE_SIZE * 10 =
      ((k + 10 : ℤ) : ℚ) * TILE_SIZE := by
    push_cast
    ring
  have hlt : s.generatedRowsMaxY < (k : ℚ) * TILE_SIZE + TILE_SIZE * 10 := by
    rw [hf, hthr, mul_lt_mul_right hT]
    exact_mod_cast hm
  rw [update_eq, if_pos hlt]
  dsimp only
  refine ⟨hthr, ?_⟩
  rw [(schedFold_log rng _ s).1]
  congr 1
  rw [hf, hthr]
  exact visited_aligned m (k + 10)

/-- The inductive invariant of a scheduler sequence: tile-aligned frontier at
row `m`, at or past the initial frontier row `m0`, and a visit log holding
each qualifying row of `[m0, m)` exactly once. -/
def SchedInv (m0 m : ℤ) (s : TMState) : Prop :=
  s.generatedRowsMaxY = (m : ℚ) * TILE_SIZE ∧ m0 ≤ m ∧
  ∀ r : ℤ, s.visitLog.count r =
    if initialPlatformRows + 1 ≤ r ∧ m0 ≤ r ∧ r < m then 1 else 0

/-- The invariant is maintained by any sequence of aligned scheduler calls. -/
theorem updates_aligned (rng : ℕ → ℚ) (cams : List ℚ) (m0 : ℤ) :
    ∀ (m : ℤ) (s : TMState), SchedInv m0 m s →
      (∀ c ∈ cams, ∃ k : ℤ, c = (k : ℚ) * TILE_SIZE) →
      ∃ mF : ℤ, SchedInv m0 mF (updates rng s cams) := by
  induction cams with
  | nil =>
    intro m s hinv _
    exact ⟨m, hinv⟩
  | cons c cams ih =>
    intro m s hinv hc
    obtain ⟨k, rfl⟩ := hc c (List.mem_cons_self c cams)
    have hstep : updates rng s ((k : ℚ) * TILE_SIZE :: cams) =
        updates rng (update rng s ((k : ℚ) * TILE_SIZE)) cams := rfl
    rw [hstep]
    by_cases hm : m < k + 10
    · apply ih (k + 10)
      · obtain ⟨hf, hm0, hcount⟩ := hinv
        have hu := update_aligned rng s m k hf hm
        refine ⟨hu.1, by omega, ?_⟩
        intro r
        rw [hu.2, List.count_append, hcount r, count_intRange_filter]
        split_ifs <;> omega
      · intro c hc2
        exact hc c (List.mem_cons_of_mem _ hc2)
    · have hT : (0 : ℚ) < TILE_SIZE := by
        unfold TILE_SIZE
        norm_num
      have hnoop : update rng s ((k : ℚ) * TILE_SIZE) = s := by
        apply update_noop
        rw [hinv.1, show (k : ℚ) * TILE_SIZE + TILE_SIZE * 10 =
          ((k + 10 : ℤ) : ℚ) * TILE_SIZE from by push_cast; ring,
          mul_le_mul_right hT]
        exact_mod_cast not_lt.mp hm
      rw [hnoop]
      exact ih m s hinv (fun c hc2 => hc c (List.mem_cons_of_mem _ hc2))

/-- C3 counterexample: from the freshly constructed state (frontier world-Y 48,
i.e. row 3) a single call `update(0)` moves the frontier to world-Y 160, yet
row 3 — strictly below the final frontier and at/below the final threshold —
is never visited by the generator (the loop skips every row at or above the
platform), so it is not visited exactly once; the rows actually visited are
6 through 9. -/
theorem update_unvisited_row_ce :
    (update constRng initialState 0).generatedRowsMaxY = 160 ∧
    (3 : ℚ) * TILE_SIZE < 160 ∧
    (3 : ℚ) * TILE_SIZE ≤ 0 + TILE_SIZE * 10 ∧
    (update constRng initialState 0).visitLog.count 3 = 0 ∧
    (update constRng initialState 0).visitLog = [6, 7, 8, 9] := by
  decide

/-- C3 (amended): for any sequence of scheduler calls with tile-aligned camera
inputs and non-decreasing thresholds, starting from a tile-aligned frontier at
row `m0` with an empty visit log: the frontier never decreases under any call,
a call whose threshold does not exceed the current frontier changes nothing,
and a row is visited by the generator exactly once iff it lies strictly below
the platform-exclusion zone (index at least `initialPlatformRows + 1`), at or
past the initial frontier, and strictly below the final frontier — and zero
times otherwise. -/
theorem update_schedule_props (rng : ℕ → ℚ) (s : TMState) (cams : List ℚ)
    (m0 : ℤ) (hlog : s.visitLog = [])
    (hf : s.generatedRowsMaxY = (m0 : ℚ) * TILE_SIZE)
    (hcams : ∀ c ∈ cams, ∃ k : ℤ, c = (k : ℚ) * TILE_SIZE)
    (hmono : cams.Chain' (· ≤ ·)) :
    (∀ (t : TMState) (c : ℚ),
      t.generatedRowsMaxY ≤ (update rng t c).generatedRowsMaxY) ∧
    (∀ (t : TMState) (c : ℚ), c + TILE_SIZE * 10 ≤ t.generatedRowsMaxY →
      update rng t c = t) ∧
    (∀ r : ℤ, (updates rng s cams).visitLog.count r =
      if initialPlatformRows + 1 ≤ r ∧ m0 ≤ r ∧
          (r : ℚ) * TILE_SIZE < (updates rng s cams).generatedRowsMaxY
      then 1 else 0) := by
  refine ⟨update_mono rng, update_noop rng, ?_⟩
  have hinv0 : SchedInv m0 m0 s := by
    refine ⟨hf, le_refl m0, ?_⟩
    intro r
    rw [hlog]
    simp only [List.count_nil]
    split_ifs with h
    · omega
    · rfl
  obtain ⟨mF, hfF, hm0F, hcountF⟩ := updates_aligned rng cams m0 m0 s hinv0 hcams
  intro r
  rw [hfF, hcountF r]
  have hiff : (initialPlatformRows + 1 ≤ r ∧ m0 ≤ r ∧ r < mF) ↔
      (initialPlatformRows + 1 ≤ r ∧ m0 ≤ r ∧
        (r : ℚ) * TILE_SIZE < (mF : ℚ) * TILE_SIZE) := by
    rw [mul_lt_mul_right (show (0 : ℚ) < TILE_SIZE from by
      unfold TILE_SIZE; norm_num), Int.cast_lt]
  rw [if_congr hiff rfl rfl]

/-- Witness for C3 at the initial state and the single aligned call
`update(0)`: row 6 is counted exactly once. -/
theorem update_schedule_props_witness :
    (updates constRng initialState [0]).visitLog.count 6 =
      if initialPlatformRows + 1 ≤ 6 ∧ 3 ≤ 6 ∧
          (6 : ℚ) * TILE_SIZE < (updates constRng initialState [0]).generatedRowsMaxY
      then 1 else 0 :=
  (update_schedule_props constRng initialState [0] 3 rfl (by decide)
    (fun c hc => ⟨0, by rw [List.mem_singleton.mp hc]; norm_num⟩)
    (by simp)).2.2 6

end

end Terrain
